import Mathlib

/-!
Verification of the simple_http file server (src/simple_http/server.py).

Bytes are modelled as `List Nat` (each entry one byte value) and decoded
text as `List Char`.  Python dictionaries holding HTTP headers are
modelled as insertion-ordered association lists in which inserting an
existing key overwrites its value in place, exactly as CPython dicts do.
Filesystem and clock effects are passed in explicitly through an `Env`
record of oracles, so every branch of the Python handlers (including the
exception branches that produce 500 responses) is reachable in the model.
-/

/-- Characters of a Lean string literal, used to transcribe the Python
string literals of the source. -/
def chars (s : String) : List Char := s.data

/-- ASCII whitespace test modelling Python `str.strip` classification
(space, tab, newline, carriage return, vertical tab, form feed). -/
def pyIsSpace (c : Char) : Bool :=
  c = ' ' || c = '\t' || c = '\n' || c = '\r' || c = Char.ofNat 11 || c = Char.ofNat 12

/-- Python `str.strip()`: drop whitespace from both ends. -/
def pyStrip (l : List Char) : List Char :=
  ((l.dropWhile pyIsSpace).reverse.dropWhile pyIsSpace).reverse

/-- ASCII lowercasing of one character, modelling Python `str.lower` on
the ASCII header names the server receives. -/
def lowerChar (c : Char) : Char :=
  if 'A' ≤ c ∧ c ≤ 'Z' then Char.ofNat (c.toNat + 32) else c

/-- Python `str.lower()` (ASCII fragment). -/
def pyLower (l : List Char) : List Char := l.map lowerChar

/-- Python `str.lstrip('/')`: drop every leading slash. -/
def lstripSlashes : List Char → List Char
  | [] => []
  | c :: rest => if c = '/' then lstripSlashes rest else c :: rest

/-- Python `'..' in s`: substring test for two consecutive dots. -/
def containsDotDot : List Char → Bool
  | [] => false
  | [_] => false
  | c :: c2 :: rest => (c = '.' && c2 = '.') || containsDotDot (c2 :: rest)

/-- Python `s.split(sep)` for a one-character separator: split at every
occurrence, keeping empty pieces. -/
def splitChar (sep : Char) : List Char → List (List Char)
  | [] => [[]]
  | c :: rest =>
    if c = sep then [] :: splitChar sep rest
    else
      match splitChar sep rest with
      | [] => [[c]]
      | piece :: pieces => (c :: piece) :: pieces

/-- Python `text.split('\r\n')`: split the decoded header text into
lines at each CR LF pair. -/
def splitCRLF : List Char → List (List Char)
  | '\r' :: '\n' :: rest => [] :: splitCRLF rest
  | c :: rest =>
    match splitCRLF rest with
    | [] => [[c]]
    | piece :: pieces => (c :: piece) :: pieces
  | [] => [[]]

/-- Python `line.split(':', 1)`: text before the first colon paired with
the text after it (the whole line and `[]` when no colon occurs; the
caller only uses it after checking that a colon is present). -/
def splitFirstColon : List Char → List Char × List Char
  | [] => ([], [])
  | ':' :: rest => ([], rest)
  | c :: rest =>
    let p := splitFirstColon rest
    (c :: p.1, p.2)

/-- First split of a byte string at the byte sequence 13 10 13 10,
modelling `raw.split(b'\r\n\r\n', 1)`; `none` when the sequence is
absent (Python `b'\r\n\r\n' in raw` is false). -/
def splitCRLFCRLF : List Nat → Option (List Nat × List Nat)
  | 13 :: 10 :: 13 :: 10 :: rest => some ([], rest)
  | b :: rest =>
    match splitCRLFCRLF rest with
    | some (pre, post) => some (b :: pre, post)
    | none => none
  | [] => none

/-- Header part and body of a raw request: the split at the first
13 10 13 10 when present, otherwise the whole buffer with empty body,
exactly as in `parse_request` lines 23-27. -/
def splitHeaderBody (raw : List Nat) : List Nat × List Nat :=
  match splitCRLFCRLF raw with
  | some p => p
  | none => (raw, [])

/-- Continuation-byte test for UTF-8 decoding. -/
def contByte (b : Nat) : Bool := 128 ≤ b && b ≤ 191

/-- Allowed second byte of a three-byte UTF-8 sequence, which depends on
the lead byte (0xE0 excludes overlong forms, 0xED excludes surrogates). -/
def cont2of3 (b b2 : Nat) : Bool :=
  if b = 224 then 160 ≤ b2 && b2 ≤ 191
  else if b = 237 then 128 ≤ b2 && b2 ≤ 159
  else contByte b2

/-- Allowed second byte of a four-byte UTF-8 sequence. -/
def cont2of4 (b b2 : Nat) : Bool :=
  if b = 240 then 144 ≤ b2 && b2 ≤ 191
  else if b = 244 then 128 ≤ b2 && b2 ≤ 143
  else contByte b2

/-- Fuel-indexed worker for UTF-8 decoding with invalid bytes ignored.
Each step consumes at least one byte, so fuel equal to the byte count is
always sufficient; the fuel only makes the recursion structural. -/
def decodeUtf8IgnoreAux : Nat → List Nat → List Char
  | 0, _ => []
  | _, [] => []
  | fuel + 1, b :: rest =>
    if b < 128 then Char.ofNat b :: decodeUtf8IgnoreAux fuel rest
    else if 194 ≤ b && b ≤ 223 then
      match rest with
      | b2 :: rest2 =>
        if contByte b2 then
          Char.ofNat ((b - 192) * 64 + (b2 - 128)) :: decodeUtf8IgnoreAux fuel rest2
        else decodeUtf8IgnoreAux fuel rest
      | [] => []
    else if 224 ≤ b && b ≤ 239 then
      match rest with
      | b2 :: b3 :: rest3 =>
        if cont2of3 b b2 && contByte b3 then
          Char.ofNat ((b - 224) * 4096 + (b2 - 128) * 64 + (b3 - 128)) ::
            decodeUtf8IgnoreAux fuel rest3
        else decodeUtf8IgnoreAux fuel rest
      | _ => decodeUtf8IgnoreAux fuel rest
    else if 240 ≤ b && b ≤ 244 then
      match rest with
      | b2 :: b3 :: b4 :: rest4 =>
        if cont2of4 b b2 && contByte b3 && contByte b4 then
          Char.ofNat ((b - 240) * 262144 + (b2 - 128) * 4096 + (b3 - 128) * 64 + (b4 - 128))
            :: decodeUtf8IgnoreAux fuel rest4
        else decodeUtf8IgnoreAux fuel rest
      | _ => decodeUtf8IgnoreAux fuel rest
    else decodeUtf8IgnoreAux fuel rest

/-- Python `bytes.decode('utf-8', errors='ignore')`: decode UTF-8,
skipping bytes that do not begin a valid sequence (invalid or truncated
sequences contribute no output characters). -/
def decodeUtf8Ignore (l : List Nat) : List Char :=
  decodeUtf8IgnoreAux l.length l

/-- UTF-8 encoding of one character, for `str.encode('utf-8')`. -/
def encodeChar (c : Char) : List Nat :=
  let n := c.toNat
  if n < 128 then [n]
  else if n < 2048 then [192 + n / 64, 128 + n % 64]
  else if n < 65536 then [224 + n / 4096, 128 + (n / 64) % 64, 128 + n % 64]
  else [240 + n / 262144, 128 + (n / 4096) % 64, 128 + (n / 64) % 64, 128 + n % 64]

/-- Python `str.encode('utf-8')` over our character lists. -/
def encodeUtf8 : List Char → List Nat
  | [] => []
  | c :: rest => encodeChar c ++ encodeUtf8 rest

/-- Byte string of a Lean string literal, used to transcribe the Python
bytes literals of the source (all of them ASCII). -/
def strBytes (s : String) : List Nat := encodeUtf8 (chars s)

/-- Decimal digit characters of a natural number, modelling Python
`str(n)` for the non-negative lengths and status codes the server prints. -/
def natChars (n : Nat) : List Char := Nat.toDigits 10 n

/-- CPython dict assignment `d[k] = v` on an insertion-ordered
association list: overwrite in place when the key is present, append
otherwise. -/
def dictInsert (hs : List (List Char × List Char)) (k v : List Char) :
    List (List Char × List Char) :=
  match hs with
  | [] => [(k, v)]
  | (k', v') :: t => if k' = k then (k, v) :: t else (k', v') :: dictInsert t k v

/-- CPython dict lookup `d.get(k)`. -/
def dictGet (k : List Char) : List (List Char × List Char) → Option (List Char)
  | [] => none
  | (k', v) :: t => if k' = k then some v else dictGet k t

/-- Python `int(s)` on an ASCII decimal string: optional sign and digits
with single underscores allowed between digits; `none` models the
ValueError raised on any other input. -/
def digitsCore (acc : Nat) : List Char → Option Nat
  | [] => some acc
  | '_' :: c :: rest =>
    if c.isDigit then digitsCore (acc * 10 + (c.toNat - 48)) rest else none
  | c :: rest =>
    if c.isDigit then digitsCore (acc * 10 + (c.toNat - 48)) rest else none

/-- Unsigned part of `int(s)`: a leading digit followed by `digitsCore`. -/
def digitsToNat : List Char → Option Nat
  | c :: rest => if c.isDigit then digitsCore (c.toNat - 48) rest else none
  | [] => none

/-- Python `int(s)` as used on the Content-Length header value. -/
def pyInt (s : List Char) : Option Int :=
  match pyStrip s with
  | '+' :: rest => (digitsToNat rest).map Int.ofNat
  | '-' :: rest => (digitsToNat rest).map (fun n => -(Int.ofNat n))
  | l => (digitsToNat l).map Int.ofNat

/-- Textual prefix test (needle, haystack) for the root-containment
statement about resolved paths. -/
def startsWithList : List Char → List Char → Bool
  | [], _ => true
  | _ :: _, [] => false
  | a :: as, b :: bs => a = b && startsWithList as bs

/-- POSIX `os.path.join(a, b)` for the two-argument calls in the source:
an absolute second part replaces the first; otherwise the parts are
concatenated, with a separator added when the first part is nonempty
and does not already end in one. -/
def osJoin (a b : List Char) : List Char :=
  if b.head? = some '/' then b
  else if a = [] then a ++ b
  else if a.getLast? = some '/' then a ++ b
  else a ++ '/' :: b

/-- `os.path.basename`: the text after the last slash. -/
def basenameOf (l : List Char) : List Char :=
  ((splitChar '/' l).getLast?).getD []

/-!
Request parser (`parse_request`, server.py lines 16-51) and path
resolver (`resolve_path`, lines 53-75).  The parser's only failure is a
request line that does not split into exactly three tokens; nothing in
the translated body can raise, so the Python `except` branch returning
the all-None sentinel is covered by that same `none`.
-/

/-- Structured request produced by `parse_request`: the tuple
(method, path, version, headers, body). -/
structure ParsedRequest where
  method : List Char
  path : List Char
  version : List Char
  headers : List (List Char × List Char)
  body : List Nat
deriving DecidableEq

/-- Header block bytes of a raw request (before the first CR LF CR LF). -/
def headerPart (raw : List Nat) : List Nat := (splitHeaderBody raw).1

/-- Decoded header lines of a raw request (`header_text.split('\r\n')`). -/
def headerTextLines (raw : List Nat) : List (List Char) :=
  splitCRLF (decodeUtf8Ignore (headerPart raw))

/-- The request line, `lines[0]` (a split is never empty). -/
def requestLine (raw : List Nat) : List Char := (headerTextLines raw).headD []

/-- Space-separated tokens of the request line
(`request_line.split(' ')`). -/
def requestLineTokens (raw : List Nat) : List (List Char) :=
  splitChar ' ' (requestLine raw)

/-- One step of header accumulation, server.py lines 43-46: a line with
a colon is split at the first colon, both sides are stripped, the key is
lowercased and stored; a line without a colon is skipped. -/
def headerStep (hs : List (List Char × List Char)) (line : List Char) :
    List (List Char × List Char) :=
  if line.elem ':' then
    let p := splitFirstColon line
    dictInsert hs (pyLower (pyStrip p.1)) (pyStrip p.2)
  else hs

/-- Header dictionary accumulated over `lines[1:]`. -/
def parseHeaderLines (ls : List (List Char)) : List (List Char × List Char) :=
  ls.foldl headerStep []

/-- `parse_request` (server.py lines 16-51): split header block from
body at the first CR LF CR LF, decode the header block ignoring invalid
bytes, require exactly three space-separated request-line tokens, and
fold the remaining lines into the header dictionary.  `none` is the
all-None sentinel. -/
def parse_request (raw : List Nat) : Option ParsedRequest :=
  match requestLineTokens raw with
  | [m, p, v] =>
    some ⟨m, p, v, parseHeaderLines (headerTextLines raw).tail, (splitHeaderBody raw).2⟩
  | _ => none

/-- Query stripping, server.py lines 59-60: `http_path.split('?')[0]`
when a question mark occurs, which is the text before the first one. -/
def stripQuery (l : List Char) : List Char := l.takeWhile (fun c => ¬ c = '?')

/-- `resolve_path` (server.py lines 53-75) with the configured
`SERVER_ROOT` passed explicitly: strip the query, map the bare `/` to
`/index.html`, strip leading slashes, reject any remaining `..`
substring, and otherwise join onto the server root. -/
def resolve_path (root : List Char) (http_path : List Char) : Option (List Char) :=
  let p1 := stripQuery http_path
  let p2 := if p1 = chars "/" then chars "/index.html" else p1
  let relative_path := lstripSlashes p2
  if containsDotDot relative_path then none
  else some (osJoin root relative_path)

/-!
Responses, the response builder (`build_response`, lines 84-103) and the
method handlers (lines 105-300).  A `Response` holds exactly the four
arguments the Python handlers pass to `build_response`; the builder
serializes them to the bytes written to the socket.  External effects
live in `Env`: filesystem query results, the read/size results with
`none` standing for a raised exception, the MIME lookup, the POST
timestamp, and flags telling whether the PUT and POST file writes
succeed (false standing for a raised exception).
-/

/-- Status line, header map and body as handed to `build_response`. -/
structure Response where
  status : Nat
  reason : List Char
  headers : List (List Char × List Char)
  body : List Nat
deriving DecidableEq

/-- `build_response` (server.py lines 84-103): the status line, each
header in insertion order as `key: value`, a blank line, then the raw
body bytes. -/
def build_response (status : Nat) (reason : List Char)
    (headers : List (List Char × List Char)) (body : List Nat) : List Nat :=
  encodeUtf8 (chars "HTTP/1.1 " ++ natChars status ++ [' '] ++ reason ++ chars "\r\n")
    ++ (headers.map fun p => encodeUtf8 (p.1 ++ chars ": " ++ p.2 ++ chars "\r\n")).foldr
        (fun a b => a ++ b) []
    ++ strBytes "\r\n"
    ++ body

/-- Serialized bytes of a structured response. -/
def responseBytes (r : Response) : List Nat :=
  build_response r.status r.reason r.headers r.body

/-- External collaborators of the handlers, passed explicitly.  `isfile`
models `os.path.isfile`; `readFile` models `open(...,'rb').read()` with
`none` for a raised exception; `getsize` models `os.path.getsize` the
same way; `mime` models `get_mime_type`; `timestamp` is the formatted
`datetime.now()`; `putWriteOk` and `postWriteOk` tell whether the
makedirs/write (PUT) and log append (POST) succeed. -/
structure Env where
  serverRoot : List Char
  baseDir : List Char
  timestamp : List Char
  isfile : List Char → Bool
  readFile : List Char → Option (List Nat)
  getsize : List Char → Option Nat
  mime : List Char → List Char
  putWriteOk : Bool
  postWriteOk : Bool

/-- `handle_get` (server.py lines 105-141). -/
def handle_get (env : Env) (path : List Char) : Response :=
  match resolve_path env.serverRoot path with
  | none =>
    ⟨404, chars "Not Found",
      [(chars "Content-Type", chars "text/html"),
       (chars "Content-Length", natChars (strBytes "404 Not Found").length),
       (chars "Connection", chars "close")],
      strBytes "404 Not Found"⟩
  | some filepath =>
    if env.isfile filepath then
      match env.readFile filepath with
      | some fileBody =>
        ⟨200, chars "OK",
          [(chars "Content-Type", env.mime filepath),
           (chars "Content-Length", natChars fileBody.length),
           (chars "Connection", chars "close")],
          fileBody⟩
      | none =>
        ⟨500, chars "Internal Server Error",
          [(chars "Content-Type", chars "text/html"),
           (chars "Content-Length", natChars (strBytes "500 Internal Server Error").length),
           (chars "Connection", chars "close")],
          strBytes "500 Internal Server Error"⟩
    else
      ⟨404, chars "Not Found",
        [(chars "Content-Type", chars "text/html"),
         (chars "Content-Length", natChars (strBytes "404 Not Found").length),
         (chars "Connection", chars "close")],
        strBytes "404 Not Found"⟩

/-- `handle_head` (server.py lines 237-270).  The 404 branch sends the
literal Content-Length string 14 with an empty body; the 500 branch the
literal 26. -/
def handle_head (env : Env) (path : List Char) : Response :=
  match resolve_path env.serverRoot path with
  | none =>
    ⟨404, chars "Not Found",
      [(chars "Content-Type", chars "text/html"),
       (chars "Content-Length", chars "14"),
       (chars "Connection", chars "close")],
      []⟩
  | some filepath =>
    if env.isfile filepath then
      match env.getsize filepath with
      | some fileSize =>
        ⟨200, chars "OK",
          [(chars "Content-Type", env.mime filepath),
           (chars "Content-Length", natChars fileSize),
           (chars "Connection", chars "close")],
          []⟩
      | none =>
        ⟨500, chars "Internal Server Error",
          [(chars "Content-Type", chars "text/html"),
           (chars "Content-Length", chars "26"),
           (chars "Connection", chars "close")],
          []⟩
    else
      ⟨404, chars "Not Found",
        [(chars "Content-Type", chars "text/html"),
         (chars "Content-Length", chars "14"),
         (chars "Connection", chars "close")],
        []⟩

/-- `handle_unsupported` (server.py lines 272-283).  The method argument
is only printed in the source, so it is not a parameter here. -/
def handle_unsupported : Response :=
  ⟨405, chars "Method Not Allowed",
    [(chars "Content-Type", chars "text/plain"),
     (chars "Allow", chars "GET, POST, PUT, HEAD"),
     (chars "Content-Length", natChars (strBytes "Method Not Allowed").length),
     (chars "Connection", chars "close")],
    strBytes "Method Not Allowed"⟩

/-- `handle_post` (server.py lines 143-173), paired with the text it
appends to the POST data file (`none` when nothing is appended).  The
appended text is the concatenation of the three `f.write` calls. -/
def handle_post (env : Env) (path : List Char) (body : List Nat) :
    Response × Option (List Char) :=
  if ¬ path = chars "/post" then (handle_unsupported, none)
  else if env.postWriteOk then
    ((⟨200, chars "OK",
        [(chars "Content-Type", chars "text/plain"),
         (chars "Content-Length", natChars (strBytes "POST received and stored.").length),
         (chars "Connection", chars "close")],
        strBytes "POST received and stored."⟩ : Response),
     some (chars "\n[" ++ env.timestamp ++ chars "]\n" ++ decodeUtf8Ignore body ++ chars "\n"))
  else
    ((⟨500, chars "Internal Server Error",
        [(chars "Content-Type", chars "text/html"),
         (chars "Content-Length", natChars (strBytes "500 Internal Server Error").length),
         (chars "Connection", chars "close")],
        strBytes "500 Internal Server Error"⟩ : Response),
     none)

/-- `handle_put` (server.py lines 175-235), paired with the filesystem
write it performs: `some (target, bytes)` when the body is stored at the
target path, `none` when nothing is written (traversal rejection or a
raised exception). -/
def handle_put (env : Env) (path : List Char) (body : List Nat) :
    Response × Option (List Char × List Nat) :=
  let relative_path := lstripSlashes path
  if containsDotDot relative_path then
    ((⟨400, chars "Bad Request",
        [(chars "Content-Type", chars "text/plain"),
         (chars "Content-Length", natChars (strBytes "400 Bad Request").length),
         (chars "Connection", chars "close")],
        strBytes "400 Bad Request"⟩ : Response),
     none)
  else
    let full_path := osJoin env.baseDir relative_path
    let file_exists := env.isfile full_path
    if env.putWriteOk then
      let filename := basenameOf full_path
      let response_body := encodeUtf8 (chars "PUT stored as " ++ filename)
      if file_exists then
        ((⟨200, chars "OK",
            [(chars "Content-Type", chars "text/plain"),
             (chars "Content-Length", natChars response_body.length),
             (chars "Connection", chars "close")],
            response_body⟩ : Response),
         some (full_path, body))
      else
        ((⟨201, chars "Created",
            [(chars "Content-Type", chars "text/plain"),
             (chars "Content-Length", natChars response_body.length),
             (chars "Location", path),
             (chars "Connection", chars "close")],
            response_body⟩ : Response),
         some (full_path, body))
    else
      ((⟨500, chars "Internal Server Error",
          [(chars "Content-Type", chars "text/html"),
           (chars "Content-Length", natChars (strBytes "500 Internal Server Error").length),
           (chars "Connection", chars "close")],
          strBytes "500 Internal Server Error"⟩ : Response),
       none)

/-- `handle_request` (server.py lines 285-300): case-sensitive dispatch
on the method token. -/
def handle_request (env : Env) (method path : List Char) (body : List Nat) : Response :=
  if method = chars "GET" then handle_get env path
  else if method = chars "POST" then (handle_post env path body).1
  else if method = chars "PUT" then (handle_put env path body).1
  else if method = chars "HEAD" then handle_head env path
  else handle_unsupported

/-- The fixed 400 response built in `start_server` (lines 361-365) when
`parse_request` returns the sentinel: headers Content-Length 11 and
Connection close only, body Bad Request. -/
def badRequest400 : Response :=
  ⟨400, chars "Bad Request",
    [(chars "Content-Length", chars "11"),
     (chars "Connection", chars "close")],
    strBytes "Bad Request"⟩

/-- Response chosen by `start_server` (lines 358-368) for a fully read
raw request: the fixed 400 response when parsing fails, the dispatched
handler response otherwise. -/
def serverRespond (env : Env) (raw : List Nat) : Response :=
  match parse_request raw with
  | none => badRequest400
  | some pr => handle_request env pr.method pr.path pr.body

/-!
The request read loop of `start_server` (server.py lines 330-356).  The
peer is modelled as the list of chunks successive `recv` calls return;
once the list is exhausted every further `recv` returns the empty chunk,
which is how a closed socket behaves.  The loops are written with an
explicit fuel argument so that running out of fuel is an observable
outcome (`fuelOut`); the termination theorem shows a fuel bound under
which that outcome never occurs, which is exactly the statement that the
Python `while True` loops terminate.  `exn` models the `ValueError`
raised by `int(...)` on a malformed Content-Length value, which the
outer `except` of the connection handler catches.
-/

/-- Outcome of the read phase. -/
inductive ReadResult where
  | done (raw : List Nat)
  | exn
  | fuelOut
deriving DecidableEq

/-- One `recv` on the modelled connection: the next chunk and the rest
of the stream, the empty chunk once the stream is exhausted. -/
def recvStep : List (List Nat) → List Nat × List (List Nat)
  | [] => ([], [])
  | c :: rest => (c, rest)

/-- The inner body read loop, lines 347-352: keep receiving while the
accumulated body length is below the declared Content-Length, stopping
on an empty chunk.  `none` is fuel exhaustion. -/
def innerRead (fuel : Nat) (raw : List Nat) (currentLen contentLength : Int)
    (chunks : List (List Nat)) : Option (List Nat) :=
  match fuel with
  | 0 => none
  | fuel + 1 =>
    if currentLen < contentLength then
      match chunks with
      | [] => some raw
      | c :: rest =>
        if c = [] then some raw
        else innerRead fuel (raw ++ c) (currentLen + c.length) contentLength rest
    else some raw

/-- The outer read loop, lines 331-356: receive chunks until the header
terminator CR LF CR LF is seen, then for a POST or PUT with a declared
Content-Length keep reading body bytes with `innerRead`; an empty chunk
before the terminator ends the loop. -/
def outerRead (fuel : Nat) (raw : List Nat) (chunks : List (List Nat)) : ReadResult :=
  match fuel with
  | 0 => ReadResult.fuelOut
  | fuel + 1 =>
    let s := recvStep chunks
    let raw' := raw ++ s.1
    match splitCRLFCRLF raw' with
    | some pp =>
      match parse_request raw' with
      | some pr =>
        if pr.method = chars "POST" ∨ pr.method = chars "PUT" then
          match dictGet (chars "content-length") pr.headers with
          | some v =>
            match pyInt v with
            | some contentLength =>
              match innerRead fuel raw' (Int.ofNat raw'.length - (Int.ofNat pp.1.length + 4))
                  contentLength s.2 with
              | some r => ReadResult.done r
              | none => ReadResult.fuelOut
            | none => ReadResult.exn
          | none => ReadResult.done raw'
        else ReadResult.done raw'
      | none => ReadResult.done raw'
    | none =>
      if s.1 = [] then ReadResult.done raw'
      else outerRead fuel raw' s.2

/-- Concatenation of a list of byte chunks. -/
def concatChunks : List (List Nat) → List Nat
  | [] => []
  | c :: rest => c ++ concatChunks rest

/-- The whole read phase on a connection whose `recv` calls return the
given chunks: run the outer loop with fuel that the termination theorem
proves sufficient. -/
def readRequest (chunks : List (List Nat)) : ReadResult :=
  outerRead (chunks.length + 2) [] chunks

/-!
Reference description of header parsing taken from the specification
text, for the duplicate-header claim: split each colon-bearing line at
the first colon, trim both sides, lowercase the key, skip lines without
a colon, and let the last occurrence of a key win.
-/

/-- Header key and value a single line contributes under the
specification's wording (`none` for a line without a colon). -/
def specHeaderOfLine (line : List Char) : Option (List Char × List Char) :=
  if line.elem ':' then
    some (pyLower (pyStrip (splitFirstColon line).1), pyStrip (splitFirstColon line).2)
  else none

/-- Value of key `k` under the specification's wording: among the lines
that parse to a header with key `k`, the value of the last one. -/
def specLastHeaderValue (k : List Char) : List (List Char) → Option (List Char)
  | [] => none
  | line :: rest =>
    match specLastHeaderValue k rest with
    | some v => some v
    | none =>
      match specHeaderOfLine line with
      | some kv => if kv.1 = k then some kv.2 else none
      | none => none

/-- A fixed environment for concrete evaluations: empty filesystem,
every read failing, octet-stream MIME fallback, successful writes. -/
def env0 : Env :=
  ⟨chars "/srv/www", chars "/srv/base", chars "2024-01-01 00:00:00",
   fun _ => false, fun _ => none, fun _ => none,
   fun _ => chars "application/octet-stream", true, true⟩

/-- A response's declared Content-Length equals the decimal rendering
of the byte length of its body. -/
def contentLengthOk (r : Response) : Prop :=
  dictGet (chars "Content-Length") r.headers = some (natChars r.body.length)

/-- The header discipline of handler-built responses: Content-Type and
Content-Length are present, Connection is the literal close, a Location
header is present exactly on status-201 responses, and an Allow header
is present exactly on status-405 responses. -/
def headerDiscipline (r : Response) : Prop :=
  (dictGet (chars "Content-Type") r.headers).isSome = true
  ∧ (dictGet (chars "Content-Length") r.headers).isSome = true
  ∧ dictGet (chars "Connection") r.headers = some (chars "close")
  ∧ (dictGet (chars "Location") r.headers).isSome = decide (r.status = 201)
  ∧ (dictGet (chars "Allow") r.headers).isSome = decide (r.status = 405)

/-!
Lemmas about the header dictionary and the helper string functions.
-/

/-- Lookup after a dict assignment: the assigned key now maps to the
assigned value and every other key is unchanged. -/
theorem dictGet_dictInsert (hs : List (List Char × List Char)) (k k' v : List Char) :
    dictGet k (dictInsert hs k' v) = if k' = k then some v else dictGet k hs := by
  induction hs with
  | nil => simp [dictInsert, dictGet]
  | cons p t ih =>
    obtain ⟨a, b⟩ := p
    by_cases h1 : a = k'
    · subst h1
      by_cases h2 : a = k <;> simp [dictInsert, dictGet, h2]
    · by_cases h2 : a = k
      · subst h2
        have h3 : ¬ k' = a := fun hh => h1 hh.symm
        simp [dictInsert, dictGet, h1, h3]
      · simp [dictInsert, dictGet, h1, h2, ih]

/-- Folding the parser's header step gives, for every key, the value of
the last line that produces that key, falling back to the accumulator. -/
theorem dictGet_headerFold (k : List Char) (ls : List (List Char))
    (hs : List (List Char × List Char)) :
    dictGet k (List.foldl headerStep hs ls) =
      match specLastHeaderValue k ls with
      | some v => some v
      | none => dictGet k hs := by
  induction ls generalizing hs with
  | nil => simp [specLastHeaderValue]
  | cons line rest ih =>
    rw [List.foldl_cons, ih]
    cases hrest : specLastHeaderValue k rest with
    | some v => simp [specLastHeaderValue, hrest]
    | none =>
      by_cases hc : ':' ∈ line
      · simp only [specLastHeaderValue, hrest, specHeaderOfLine, headerStep,
          List.elem_eq_mem, hc, if_true]
        by_cases hk : pyLower (pyStrip (splitFirstColon line).1) = k <;>
          simp [hk, dictGet_dictInsert]
      · simp [specLastHeaderValue, hrest, specHeaderOfLine, headerStep, hc]

/-- C7: for every header block the parser accepts, the returned header
mapping is exactly described by the specification's wording: each line
after the request line containing a colon is split at the first colon,
both sides trimmed, the key lowercased; colon-free lines are skipped;
and when a (lowercased) key occurs on several lines the value of the
last occurrence is the one the mapping returns. -/
theorem header_parsing_last_wins (raw : List Nat) (pr : ParsedRequest)
    (h : parse_request raw = some pr) (k : List Char) :
    dictGet k pr.headers = specLastHeaderValue k (headerTextLines raw).tail := by
  have hh : pr.headers = parseHeaderLines (headerTextLines raw).tail := by
    unfold parse_request at h
    split at h
    · cases h
      rfl
    · cases h
  rw [hh]
  unfold parseHeaderLines
  rw [dictGet_headerFold]
  cases hs : specLastHeaderValue k (headerTextLines raw).tail <;> simp [dictGet]

/-- Witness for C7 at a concrete request with a duplicate key (stored
with differing case and spacing) and a colon-free line. -/
theorem header_parsing_last_wins_witness :
    parse_request
        (strBytes "GET /index.html HTTP/1.1\r\nHost: x\r\nX-A:  1 \r\nnocolon\r\nx-a: 2\r\n\r\nbody")
      = some ⟨chars "GET", chars "/index.html", chars "HTTP/1.1",
          [(chars "host", chars "x"), (chars "x-a", chars "2")], strBytes "body"⟩
    ∧ dictGet (chars "x-a")
        [(chars "host", chars "x"), (chars "x-a", chars "2")]
      = specLastHeaderValue (chars "x-a")
          (headerTextLines
            (strBytes "GET /index.html HTTP/1.1\r\nHost: x\r\nX-A:  1 \r\nnocolon\r\nx-a: 2\r\n\r\nbody")).tail :=
  ⟨by decide,
   header_parsing_last_wins
     (strBytes "GET /index.html HTTP/1.1\r\nHost: x\r\nX-A:  1 \r\nnocolon\r\nx-a: 2\r\n\r\nbody")
     ⟨chars "GET", chars "/index.html", chars "HTTP/1.1",
       [(chars "host", chars "x"), (chars "x-a", chars "2")], strBytes "body"⟩
     (by decide) (chars "x-a")⟩

/-- C4: whenever the first line of the raw buffer does not split on
spaces into exactly three tokens, the parser returns the all-None
sentinel and the server responds 400 with body Bad Request. -/
theorem bad_request_line_gives_400 (env : Env) (raw : List Nat)
    (h : ¬ (requestLineTokens raw).length = 3) :
    parse_request raw = none
    ∧ (serverRespond env raw).status = 400
    ∧ (serverRespond env raw).body = strBytes "Bad Request" := by
  have hp : parse_request raw = none := by
    unfold parse_request
    split
    · rename_i heq
      exact absurd (by rw [heq]; rfl) h
    · rfl
  refine ⟨hp, ?_, ?_⟩ <;> simp [serverRespond, hp, badRequest400]

/-- Witness for C4 at a one-token request line. -/
theorem bad_request_line_gives_400_witness :
    ¬ (requestLineTokens (strBytes "HELLO\r\n\r\n")).length = 3
    ∧ (parse_request (strBytes "HELLO\r\n\r\n") = none
       ∧ (serverRespond env0 (strBytes "HELLO\r\n\r\n")).status = 400
       ∧ (serverRespond env0 (strBytes "HELLO\r\n\r\n")).body = strBytes "Bad Request") :=
  ⟨by decide, bad_request_line_gives_400 env0 (strBytes "HELLO\r\n\r\n") (by decide)⟩

/-- A two-dot substring stays present when text is appended. -/
theorem containsDotDot_append (l r : List Char) (h : containsDotDot l = true) :
    containsDotDot (l ++ r) = true := by
  induction l with
  | nil => simp [containsDotDot] at h
  | cons c t ih =>
    cases t with
    | nil => simp [containsDotDot] at h
    | cons c2 t2 =>
      simp only [containsDotDot, Bool.or_eq_true] at h ⊢
      cases h with
      | inl h1 => exact Or.inl h1
      | inr h2 => exact Or.inr (ih h2)

/-- Stripping leading slashes commutes with appending text once the
stripped part is nonempty. -/
theorem lstripSlashes_append (q r : List Char) (h : ¬ lstripSlashes q = []) :
    lstripSlashes (q ++ r) = lstripSlashes q ++ r := by
  induction q with
  | nil => simp [lstripSlashes] at h
  | cons c t ih =>
    by_cases hc : c = '/'
    · subst hc
      simp only [List.cons_append, lstripSlashes, if_pos rfl] at h ⊢
      exact ih h
    · simp [lstripSlashes, hc]

/-- Every string is its query-stripped part followed by a remainder. -/
theorem stripQuery_split (l : List Char) : ∃ r, l = stripQuery l ++ r :=
  ⟨l.dropWhile (fun c => ¬ c = '?'), (List.takeWhile_append_dropWhile _ _).symm⟩

/-- The slash-stripped text never begins with a slash. -/
theorem lstripSlashes_head (l : List Char) : ¬ (lstripSlashes l).head? = some '/' := by
  induction l with
  | nil => simp [lstripSlashes]
  | cons c t ih =>
    by_cases hc : c = '/'
    · simpa [lstripSlashes, hc] using ih
    · simp [lstripSlashes, hc]

/-- A list is a textual prefix of itself followed by anything. -/
theorem startsWithList_append (a t : List Char) : startsWithList a (a ++ t) = true := by
  induction a with
  | nil => rfl
  | cons c r ih => simp [startsWithList, ih]

/-- Joining a relative part onto a base keeps the base as a textual
prefix of the result. -/
theorem startsWith_osJoin (a b : List Char) (hb : ¬ b.head? = some '/') :
    startsWithList a (osJoin a b) = true := by
  unfold osJoin
  rw [if_neg hb]
  by_cases ha : a = []
  · subst ha; rfl
  · rw [if_neg ha]
    by_cases hl : a.getLast? = some '/'
    · rw [if_pos hl]; exact startsWithList_append a b
    · rw [if_neg hl]; exact startsWithList_append a ('/' :: b)

/-- C5: every request path whose text, after query stripping and
leading-slash removal, still contains the substring of two dots is
rejected: GET and HEAD answer 404 (the resolver refuses the path) and
PUT answers 400. -/
theorem dotdot_paths_rejected (env : Env) (path : List Char) (body : List Nat)
    (h : containsDotDot (lstripSlashes (stripQuery path)) = true) :
    (handle_get env path).status = 404
    ∧ (handle_head env path).status = 404
    ∧ ((handle_put env path body).1).status = 400 := by
  have hq : ¬ stripQuery path = chars "/" := by
    intro hcontra
    rw [hcontra] at h
    simp [lstripSlashes, containsDotDot, chars] at h
  have hres : resolve_path env.serverRoot path = none := by
    simp only [resolve_path]
    rw [if_neg hq, if_pos h]
  have hput : containsDotDot (lstripSlashes path) = true := by
    obtain ⟨r, hr⟩ := stripQuery_split path
    have hne : ¬ lstripSlashes (stripQuery path) = [] := by
      intro hnil
      rw [hnil] at h
      simp [containsDotDot] at h
    rw [hr, lstripSlashes_append _ _ hne]
    exact containsDotDot_append _ _ h
  refine ⟨?_, ?_, ?_⟩
  · simp [handle_get, hres]
  · simp [handle_head, hres]
  · simp only [handle_put]
    rw [if_pos hput]

/-- Witness for C5 at the path /../../etc/passwd. -/
theorem dotdot_paths_rejected_witness :
    containsDotDot (lstripSlashes (stripQuery (chars "/../../etc/passwd"))) = true
    ∧ ((handle_get env0 (chars "/../../etc/passwd")).status = 404
       ∧ (handle_head env0 (chars "/../../etc/passwd")).status = 404
       ∧ ((handle_put env0 (chars "/../../etc/passwd") (strBytes "x")).1).status = 400) :=
  ⟨by decide,
   dotdot_paths_rejected env0 (chars "/../../etc/passwd") (strBytes "x") (by decide)⟩

/-- C10: whenever the resolver accepts a path, its result is the server
root joined with a relative remainder holding no two-dot substring and
not beginning with a slash, so the root is always a textual prefix of
the result. -/
theorem resolved_paths_under_root (root p fp : List Char)
    (h : resolve_path root p = some fp) :
    ∃ rel, fp = osJoin root rel ∧ containsDotDot rel = false
      ∧ ¬ rel.head? = some '/' ∧ startsWithList root fp = true := by
  simp only [resolve_path] at h
  by_cases hdd :
      containsDotDot
        (lstripSlashes (if stripQuery p = chars "/" then chars "/index.html" else stripQuery p))
        = true
  · rw [if_pos hdd] at h
    cases h
  · rw [if_neg hdd] at h
    cases h
    refine ⟨_, rfl, ?_, lstripSlashes_head _, startsWith_osJoin root _ (lstripSlashes_head _)⟩
    simpa using hdd

/-- Witness for C10 at a normal file path. -/
theorem resolved_paths_under_root_witness :
    resolve_path (chars "/srv/www") (chars "/a.html") = some (chars "/srv/www/a.html")
    ∧ ∃ rel, chars "/srv/www/a.html" = osJoin (chars "/srv/www") rel
        ∧ containsDotDot rel = false
        ∧ ¬ rel.head? = some '/'
        ∧ startsWithList (chars "/srv/www") (chars "/srv/www/a.html") = true :=
  ⟨by decide,
   resolved_paths_under_root (chars "/srv/www") (chars "/a.html") (chars "/srv/www/a.html")
     (by decide)⟩

/-- C6: on a safe PUT path whose write succeeds, the handler stores
exactly the request body bytes at the base-directory target; when the
target did not already exist it answers 201 with a Location header equal
to the original request path, and when it did exist it answers 200 with
no Location header. -/
theorem put_create_overwrite (env : Env) (path : List Char) (body : List Nat)
    (hsafe : containsDotDot (lstripSlashes path) = false)
    (hw : env.putWriteOk = true) :
    (handle_put env path body).2 = some (osJoin env.baseDir (lstripSlashes path), body)
    ∧ (env.isfile (osJoin env.baseDir (lstripSlashes path)) = false →
        (handle_put env path body).1.status = 201
        ∧ dictGet (chars "Location") (handle_put env path body).1.headers = some path)
    ∧ (env.isfile (osJoin env.baseDir (lstripSlashes path)) = true →
        (handle_put env path body).1.status = 200
        ∧ dictGet (chars "Location") (handle_put env path body).1.headers = none) := by
  refine ⟨?_, fun hex => ?_, fun hex => ?_⟩
  · simp only [handle_put, hsafe, hw]
    cases hfe : env.isfile (osJoin env.baseDir (lstripSlashes path)) <;> simp [hfe]
  · simp only [handle_put, hsafe, hw, hex]
    refine ⟨rfl, ?_⟩
    rfl
  · simp only [handle_put, hsafe, hw, hex]
    refine ⟨rfl, ?_⟩
    rfl

/-- Witness for C6: a fresh target (201 with Location) under `env0` and
an existing target (200 without Location) under the same environment
with an all-true file test. -/
theorem put_create_overwrite_witness :
    containsDotDot (lstripSlashes (chars "/files/new.txt")) = false
    ∧ (handle_put env0 (chars "/files/new.txt") (strBytes "payload")).2
        = some (osJoin env0.baseDir (lstripSlashes (chars "/files/new.txt")), strBytes "payload")
    ∧ (handle_put env0 (chars "/files/new.txt") (strBytes "payload")).1.status = 201
    ∧ dictGet (chars "Location")
        (handle_put env0 (chars "/files/new.txt") (strBytes "payload")).1.headers
      = some (chars "/files/new.txt") :=
  ⟨by decide,
   (put_create_overwrite env0 (chars "/files/new.txt") (strBytes "payload")
      (by decide) (by decide)).1,
   ((put_create_overwrite env0 (chars "/files/new.txt") (strBytes "payload")
      (by decide) (by decide)).2.1 (by decide)).1,
   ((put_create_overwrite env0 (chars "/files/new.txt") (strBytes "payload")
      (by decide) (by decide)).2.1 (by decide)).2⟩

/-- C9: a POST to the exact path /post whose log append succeeds writes
an entry made of a newline, the bracketed timestamp line, the body
decoded with invalid bytes ignored, and a trailing newline, and answers
200 with the fixed confirmation body; a POST to any other path produces
the 405 unsupported-method response and appends nothing. -/
theorem post_append_and_route (env : Env) (path : List Char) (body : List Nat) :
    (path = chars "/post" → env.postWriteOk = true →
      (handle_post env path body).2
          = some (chars "\n[" ++ env.timestamp ++ chars "]\n" ++ decodeUtf8Ignore body ++ chars "\n")
      ∧ (handle_post env path body).1.status = 200
      ∧ (handle_post env path body).1.body = strBytes "POST received and stored.")
    ∧ (¬ path = chars "/post" →
      (handle_post env path body).1 = handle_unsupported
      ∧ (handle_post env path body).2 = none) := by
  constructor
  · intro hp hw
    simp [handle_post, hp, hw]
  · intro hp
    simp [handle_post, hp]

/-- Witness for C9 exercising both the /post branch and the rejection
branch. -/
theorem post_append_and_route_witness :
    ((handle_post env0 (chars "/post") (strBytes "hello")).2
        = some (chars "\n[" ++ env0.timestamp ++ chars "]\n"
            ++ decodeUtf8Ignore (strBytes "hello") ++ chars "\n")
      ∧ (handle_post env0 (chars "/post") (strBytes "hello")).1.status = 200
      ∧ (handle_post env0 (chars "/post") (strBytes "hello")).1.body
          = strBytes "POST received and stored.")
    ∧ ((handle_post env0 (chars "/other") (strBytes "hello")).1 = handle_unsupported
      ∧ (handle_post env0 (chars "/other") (strBytes "hello")).2 = none) :=
  ⟨(post_append_and_route env0 (chars "/post") (strBytes "hello")).1 (by decide) (by decide),
   (post_append_and_route env0 (chars "/other") (strBytes "hello")).2 (by decide)⟩

/-- GET responses keep the header discipline. -/
theorem headerDiscipline_get (env : Env) (p : List Char) :
    headerDiscipline (handle_get env p) := by
  unfold handle_get
  cases hres : resolve_path env.serverRoot p with
  | none => exact ⟨rfl, rfl, rfl, rfl, rfl⟩
  | some fp =>
    cases hfe : env.isfile fp
    · simp only [hfe, Bool.false_eq_true, if_false]
      exact ⟨rfl, rfl, rfl, rfl, rfl⟩
    · simp only [hfe, if_true]
      cases hrf : env.readFile fp
      · exact ⟨rfl, rfl, rfl, rfl, rfl⟩
      · exact ⟨rfl, rfl, rfl, rfl, rfl⟩

/-- HEAD responses keep the header discipline. -/
theorem headerDiscipline_head (env : Env) (p : List Char) :
    headerDiscipline (handle_head env p) := by
  unfold handle_head
  cases hres : resolve_path env.serverRoot p with
  | none => exact ⟨rfl, rfl, rfl, rfl, rfl⟩
  | some fp =>
    cases hfe : env.isfile fp
    · simp only [hfe, Bool.false_eq_true, if_false]
      exact ⟨rfl, rfl, rfl, rfl, rfl⟩
    · simp only [hfe, if_true]
      cases hgs : env.getsize fp
      · exact ⟨rfl, rfl, rfl, rfl, rfl⟩
      · exact ⟨rfl, rfl, rfl, rfl, rfl⟩

/-- POST responses keep the header discipline. -/
theorem headerDiscipline_post (env : Env) (p : List Char) (b : List Nat) :
    headerDiscipline ((handle_post env p b).1) := by
  unfold handle_post
  by_cases hp : p = chars "/post"
  · cases hw : env.postWriteOk
    · simp only [hp, not_true, Bool.false_eq_true, if_false, hw]
      exact ⟨rfl, rfl, rfl, rfl, rfl⟩
    · simp only [hp, not_true, Bool.false_eq_true, if_false, hw, if_true]
      exact ⟨rfl, rfl, rfl, rfl, rfl⟩
  · simp only [hp, not_false_iff, if_true]
    exact ⟨rfl, rfl, rfl, rfl, rfl⟩

/-- PUT responses keep the header discipline. -/
theorem headerDiscipline_put (env : Env) (p : List Char) (b : List Nat) :
    headerDiscipline ((handle_put env p b).1) := by
  unfold handle_put
  cases hdd : containsDotDot (lstripSlashes p)
  · simp only [hdd, Bool.false_eq_true, if_false]
    cases hw : env.putWriteOk
    · simp only [hw, Bool.false_eq_true, if_false]
      exact ⟨rfl, rfl, rfl, rfl, rfl⟩
    · simp only [hw, if_true]
      cases hfe : env.isfile (osJoin env.baseDir (lstripSlashes p))
      · simp only [hfe, Bool.false_eq_true, if_false]
        exact ⟨rfl, rfl, rfl, rfl, rfl⟩
      · simp only [hfe, if_true]
        exact ⟨rfl, rfl, rfl, rfl, rfl⟩
  · simp only [hdd, if_true]
    exact ⟨rfl, rfl, rfl, rfl, rfl⟩

/-- The 405 response keeps the header discipline. -/
theorem headerDiscipline_unsupported : headerDiscipline handle_unsupported :=
  ⟨rfl, rfl, rfl, rfl, rfl⟩

/-- Every dispatched response keeps the header discipline. -/
theorem headerDiscipline_request (env : Env) (m p : List Char) (b : List Nat) :
    headerDiscipline (handle_request env m p b) := by
  unfold handle_request
  split
  · exact headerDiscipline_get env p
  · split
    · exact headerDiscipline_post env p b
    · split
      · exact headerDiscipline_put env p b
      · split
        · exact headerDiscipline_head env p
        · exact headerDiscipline_unsupported

/-- GET responses declare their exact body length. -/
theorem contentLengthOk_get (env : Env) (p : List Char) :
    contentLengthOk (handle_get env p) := by
  unfold handle_get
  cases hres : resolve_path env.serverRoot p with
  | none => rfl
  | some fp =>
    cases hfe : env.isfile fp
    · simp only [hfe, Bool.false_eq_true, if_false]
      rfl
    · simp only [hfe, if_true]
      cases hrf : env.readFile fp
      · rfl
      · rfl

/-- POST responses declare their exact body length. -/
theorem contentLengthOk_post (env : Env) (p : List Char) (b : List Nat) :
    contentLengthOk ((handle_post env p b).1) := by
  unfold handle_post
  by_cases hp : p = chars "/post"
  · cases hw : env.postWriteOk
    · simp only [hp, not_true, Bool.false_eq_true, if_false, hw]
      rfl
    · simp only [hp, not_true, Bool.false_eq_true, if_false, hw, if_true]
      rfl
  · simp only [hp, not_false_iff, if_true]
    rfl

/-- PUT responses declare their exact body length. -/
theorem contentLengthOk_put (env : Env) (p : List Char) (b : List Nat) :
    contentLengthOk ((handle_put env p b).1) := by
  unfold handle_put
  cases hdd : containsDotDot (lstripSlashes p)
  · simp only [hdd, Bool.false_eq_true, if_false]
    cases hw : env.putWriteOk
    · simp only [hw, Bool.false_eq_true, if_false]
      rfl
    · simp only [hw, if_true]
      cases hfe : env.isfile (osJoin env.baseDir (lstripSlashes p))
      · simp only [hfe, Bool.false_eq_true, if_false]
        rfl
      · simp only [hfe, if_true]
        rfl
  · simp only [hdd, if_true]
    rfl

/-- HEAD responses always carry an empty body. -/
theorem head_body_empty (env : Env) (p : List Char) : (handle_head env p).body = [] := by
  unfold handle_head
  cases hres : resolve_path env.serverRoot p with
  | none => rfl
  | some fp =>
    cases hfe : env.isfile fp
    · simp only [hfe, Bool.false_eq_true, if_false]
    · simp only [hfe, if_true]
      cases hgs : env.getsize fp
      · rfl
      · rfl

/-- C1 (amended): every response built by the GET, POST and PUT
handlers, by the unsupported-method handler and by the 400 parse-failure
path declares a Content-Length equal to the exact byte length of the
body handed to the response builder; HEAD responses instead always have
an empty body (their Content-Length carries the nominal lengths of the
source). -/
theorem content_length_exact_amended (env : Env) (p : List Char) (b : List Nat) :
    contentLengthOk (handle_get env p)
    ∧ contentLengthOk ((handle_post env p b).1)
    ∧ contentLengthOk ((handle_put env p b).1)
    ∧ contentLengthOk handle_unsupported
    ∧ contentLengthOk badRequest400
    ∧ (handle_head env p).body = [] :=
  ⟨contentLengthOk_get env p, contentLengthOk_post env p b, contentLengthOk_put env p b,
   rfl, rfl, head_body_empty env p⟩

/-- C1 counterexample: the HEAD 404 response is built and written with
an empty body yet declares Content-Length 14, so the claim as stated
over all methods including HEAD is false. -/
theorem content_length_exact_counterexample :
    dictGet (chars "Content-Length") (handle_head env0 (chars "/missing.html")).headers
      = some (chars "14")
    ∧ (handle_head env0 (chars "/missing.html")).body = []
    ∧ ¬ chars "14" = natChars (handle_head env0 (chars "/missing.html")).body.length := by
  decide

/-- C2 (amended): every dispatched handler response carries
Content-Type, Content-Length and Connection close, with Location exactly
on 201 PUT-created responses and Allow exactly on 405 responses; the 400
parse-failure response instead carries only Content-Length 11 and
Connection close, with no Content-Type. -/
theorem response_headers_amended (env : Env) (m p : List Char) (b : List Nat) :
    headerDiscipline (handle_request env m p b)
    ∧ badRequest400.headers
        = [(chars "Content-Length", chars "11"), (chars "Connection", chars "close")]
    ∧ (dictGet (chars "Content-Type") badRequest400.headers).isSome = false :=
  ⟨headerDiscipline_request env m p b, rfl, rfl⟩

/-- C2 counterexample: the server's 400 response to an unparseable
request line carries no Content-Type header, so the claim that every
emitted response carries all three headers is false. -/
theorem response_headers_counterexample :
    (serverRespond env0 (strBytes "X\r\n\r\n")).status = 400
    ∧ (dictGet (chars "Content-Type") (serverRespond env0 (strBytes "X\r\n\r\n")).headers).isSome
        = false := by
  decide

/-- C3 (code bug evaluated): for a missing target, HEAD answers 404 with
an empty body and the literal Content-Length 14, while GET's 404 body
is the thirteen-byte string 404 Not Found and GET declares
Content-Length 13; the source comment calls 14 the length of that very
string, so the two responses disagree where the claim (and the code's
own comment) say they match. -/
theorem head_404_content_length_mismatch :
    (handle_head env0 (chars "/missing.html")).status = 404
    ∧ (handle_head env0 (chars "/missing.html")).body = []
    ∧ dictGet (chars "Content-Length") (handle_head env0 (chars "/missing.html")).headers
        = some (chars "14")
    ∧ (handle_get env0 (chars "/missing.html")).status = 404
    ∧ (handle_get env0 (chars "/missing.html")).body = strBytes "404 Not Found"
    ∧ dictGet (chars "Content-Length") (handle_get env0 (chars "/missing.html")).headers
        = some (chars "13")
    ∧ (strBytes "404 Not Found").length = 13
    ∧ ¬ chars "14" = chars "13" := by
  decide

/-- The inner body-read loop returns, with fuel above the number of
remaining chunks, the accumulator extended by some consumed prefix of
the chunk stream. -/
theorem innerRead_total (chunks : List (List Nat)) (f : Nat) (raw : List Nat)
    (cur cl : Int) (h : chunks.length < f) :
    ∃ k, innerRead f raw cur cl chunks = some (raw ++ concatChunks (chunks.take k)) := by
  induction chunks generalizing f raw cur with
  | nil =>
    cases f with
    | zero => simp at h
    | succ f' =>
      by_cases hlt : cur < cl
      · exact ⟨0, by simp [innerRead, hlt, concatChunks]⟩
      · exact ⟨0, by simp [innerRead, hlt, concatChunks]⟩
  | cons c rest ih =>
    cases f with
    | zero => simp at h
    | succ f' =>
      by_cases hlt : cur < cl
      · by_cases hc : c = []
        · exact ⟨0, by simp [innerRead, hlt, hc, concatChunks]⟩
        · have h' : rest.length < f' := by
            simp only [List.length_cons] at h
            omega
          obtain ⟨k, hk⟩ := ih f' (raw ++ c) (cur + c.length) h'
          refine ⟨k + 1, ?_⟩
          simp [innerRead, hlt, hc, hk, concatChunks]
      · exact ⟨0, by simp [innerRead, hlt, concatChunks]⟩

/-- The outer read loop, with fuel exceeding the chunk count by at least
two, either finishes with the initial accumulator extended by some
consumed prefix of the stream or raises on a malformed Content-Length;
it never runs out of fuel. -/
theorem outerRead_total (chunks : List (List Nat)) (f : Nat) (raw : List Nat)
    (h : chunks.length + 1 < f) :
    (∃ k, outerRead f raw chunks = ReadResult.done (raw ++ concatChunks (chunks.take k)))
    ∨ outerRead f raw chunks = ReadResult.exn := by
  induction chunks generalizing f raw with
  | nil =>
    cases f with
    | zero => simp at h
    | succ f' =>
      cases hsplit : splitCRLFCRLF raw with
      | none =>
        exact Or.inl ⟨0, by simp [outerRead, recvStep, hsplit, concatChunks]⟩
      | some pp =>
        cases hpr : parse_request raw with
        | none =>
          exact Or.inl ⟨0, by simp [outerRead, recvStep, hsplit, hpr, concatChunks]⟩
        | some pr =>
          by_cases hm : pr.method = chars "POST" ∨ pr.method = chars "PUT"
          · cases hcl : dictGet (chars "content-length") pr.headers with
            | none =>
              exact Or.inl ⟨0, by
                simp [outerRead, recvStep, hsplit, hpr, hm, hcl, concatChunks]⟩
            | some v =>
              cases hint : pyInt v with
              | none =>
                exact Or.inr (by
                  simp [outerRead, recvStep, hsplit, hpr, hm, hcl, hint])
              | some n =>
                have hf' : ([] : List (List Nat)).length < f' := by
                  simp only [List.length_nil] at h ⊢
                  omega
                obtain ⟨k, hk⟩ := innerRead_total [] f' raw
                  ((raw.length : Int) - ((pp.1.length : Int) + 4)) n hf'
                exact Or.inl ⟨0, by
                  simp [outerRead, recvStep, hsplit, hpr, hm, hcl, hint, hk, concatChunks]⟩
          · exact Or.inl ⟨0, by
              simp [outerRead, recvStep, hsplit, hpr, hm, concatChunks]⟩
  | cons c rest ih =>
    cases f with
    | zero => simp at h
    | succ f' =>
      have hlen : rest.length + 1 < f' := by
        simp only [List.length_cons] at h
        omega
      cases hsplit : splitCRLFCRLF (raw ++ c) with
      | none =>
        by_cases hc : c = []
        · subst hc
          simp only [List.append_nil] at hsplit
          exact Or.inl ⟨1, by simp [outerRead, recvStep, hsplit, concatChunks]⟩
        · cases ih f' (raw ++ c) hlen with
          | inl hdone =>
            obtain ⟨k, hk⟩ := hdone
            exact Or.inl ⟨k + 1, by simp [outerRead, recvStep, hsplit, hc, hk, concatChunks]⟩
          | inr hexn =>
            exact Or.inr (by simp [outerRead, recvStep, hsplit, hc, hexn])
      | some pp =>
        cases hpr : parse_request (raw ++ c) with
        | none =>
          exact Or.inl ⟨1, by simp [outerRead, recvStep, hsplit, hpr, concatChunks]⟩
        | some pr =>
          by_cases hm : pr.method = chars "POST" ∨ pr.method = chars "PUT"
          · cases hcl : dictGet (chars "content-length") pr.headers with
            | none =>
              exact Or.inl ⟨1, by
                simp [outerRead, recvStep, hsplit, hpr, hm, hcl, concatChunks]⟩
            | some v =>
              cases hint : pyInt v with
              | none =>
                exact Or.inr (by
                  simp [outerRead, recvStep, hsplit, hpr, hm, hcl, hint])
              | some n =>
                have hf' : rest.length < f' := by omega
                obtain ⟨k, hk⟩ := innerRead_total rest f' (raw ++ c)
                  (((raw ++ c).length : Int) - ((pp.1.length : Int) + 4)) n hf'
                simp only [List.length_append, Nat.cast_add] at hk
                exact Or.inl ⟨k + 1, by
                  simp [outerRead, recvStep, hsplit, hpr, hm, hcl, hint, hk, concatChunks]⟩
          · exact Or.inl ⟨1, by
              simp [outerRead, recvStep, hsplit, hpr, hm, concatChunks]⟩

/-- C8: on every modelled byte stream - in particular one whose POST or
PUT request declares a Content-Length larger than what the peer sends
before closing - the read phase terminates, returning the bytes
accumulated from some consumed prefix of the stream (or stopping on the
exception a malformed Content-Length value raises); it never exhausts
the fuel bound, which is the model's statement that the Python read
loops cannot run forever once `recv` keeps returning empty chunks. -/
theorem read_loop_terminates (chunks : List (List Nat)) :
    (∃ k, readRequest chunks = ReadResult.done (concatChunks (chunks.take k)))
    ∨ readRequest chunks = ReadResult.exn := by
  have h := outerRead_total chunks (chunks.length + 2) [] (by omega)
  simpa [readRequest] using h
